import Mathlib

/-!
Shallow embedding of the bytecode compiler and stack-machine VM of the
monkey-lang repository (src/src/compiler/code.rs, compiler/symbol_table.rs,
compiler/compiler.rs, vm.rs), together with theorems settling the frozen
claims about its specification.

Machine-integer conventions: Rust `u8`/`u16`/`usize` values are modelled as
`Nat`, with an explicit `% 256` / `% 65536` wherever the source performs an
`as u8` / `as u16` cast.  Rust `isize` runtime integers are modelled as `Int`
(the claims under study never exercise `isize` overflow).  Rust panics are
modelled as the error side of `Except`.
-/

namespace Monkey

/-- Runtime value type, from `src/src/evaluator.rs` (`pub enum Object`):
`Null`, `Int(isize)`, `Boolean(bool)`, `Return(Box<Object>)`.  The VM only
produces and consumes the `int` and `boolean` variants. -/
inductive Object where
  | null
  | int (val : Int)
  | boolean (val : Bool)
  | ret (val : Object)
deriving DecidableEq, Repr

/-- Opcode enumeration, from `src/src/compiler/code.rs` (`pub enum OpCode`).
Operand-bearing opcodes carry a `u16`, modelled as `Nat`. -/
inductive OpCode where
  | opConstant (operand : Nat)
  | opAdd
  | opSub
  | opMul
  | opDiv
  | opPop
  | opTrue
  | opFalse
  | opGreater
  | opLess
  | opEqual
  | opNotEqual
  | opBang
  | opMinus
  | opJmp (operand : Nat)
  | opJmpIfFalse (operand : Nat)
  | opSetGlobal (operand : Nat)
  | opGetGlobal (operand : Nat)
deriving DecidableEq, Repr

/-- Instruction encoder `make_op`, from `src/src/compiler/code.rs`.  A 3-byte
instruction is `[tag, operand >> 8 as u8, operand as u8]` (big-endian
operand); operand-less opcodes encode as their single tag byte.  The `as u8`
casts are the `% 256` reductions. -/
def make_op : OpCode → List Nat
  | .opConstant operand => [0x01, (operand >>> 8) % 256, operand % 256]
  | .opAdd => [0x02]
  | .opSub => [0x03]
  | .opMul => [0x04]
  | .opDiv => [0x05]
  | .opPop => [0x06]
  | .opTrue => [0x07]
  | .opFalse => [0x08]
  | .opGreater => [0x09]
  | .opLess => [0x0a]
  | .opEqual => [0x0b]
  | .opNotEqual => [0x0c]
  | .opBang => [0x0d]
  | .opMinus => [0x0e]
  | .opJmp operand => [0x0f, (operand >>> 8) % 256, operand % 256]
  | .opJmpIfFalse operand => [0x10, (operand >>> 8) % 256, operand % 256]
  | .opSetGlobal operand => [0x11, (operand >>> 8) % 256, operand % 256]
  | .opGetGlobal operand => [0x12, (operand >>> 8) % 256, operand % 256]

/-- Operand decoder `two_u8_to_usize`, from `src/src/compiler/code.rs`:
`((int_one as usize) << 8) | int_two as usize`. -/
def two_u8_to_usize (int_one int_two : Nat) : Nat :=
  (int_one <<< 8) ||| int_two

/-- Symbol entry, from `src/src/compiler/symbol_table.rs` (`pub struct
Symbol`): a slot index (`u16`, modelled as `Nat`) and a scope string. -/
structure Symbol where
  index : Nat
  scope : String
deriving DecidableEq, Repr

/-- Symbol table, from `src/src/compiler/symbol_table.rs`.  The Rust
`HashMap<String, Symbol>` (whose `insert` replaces any existing entry for the
key) is modelled as a lookup function `String → Option Symbol`;
`next_index : u16` is modelled as `Nat` (the claims stay within the `u16`
range, where the models agree). -/
structure SymbolTable where
  symbols : String → Option Symbol
  next_index : Nat

/-- `SymbolTable::new`: empty map, `next_index` 0. -/
def SymbolTable.new : SymbolTable :=
  { symbols := fun _ => none, next_index := 0 }

/-- `SymbolTable::define`: insert `Symbol::new(next_index, scope)` under
`name` (replacing any prior entry), increment `next_index`, and return the
assigned index (`self.next_index - 1` after the increment). -/
def SymbolTable.define (st : SymbolTable) (name scope : String) : Nat × SymbolTable :=
  (st.next_index,
   { symbols := fun n => if n = name then some ⟨st.next_index, scope⟩ else st.symbols n,
     next_index := st.next_index + 1 })

/-- `SymbolTable::resolve`: look the name up and project the stored index. -/
def SymbolTable.resolve (st : SymbolTable) (name : String) : Option Nat :=
  match st.symbols name with
  | some val => some val.index
  | none => none

/-- Infix operators, from `src/src/parser.rs` (`pub enum Operator`). -/
inductive Operator where
  | PLUS
  | MINUS
  | MULTIPLY
  | DIVIDE
  | GREATER
  | LESS
  | EQUAL
  | NEQUAL
deriving DecidableEq, Repr

/-- Prefix operators, from `src/src/parser.rs` (`pub enum Prefix`). -/
inductive PreOp where
  | BANG
  | MINUS
deriving DecidableEq, Repr

mutual

/-- AST expressions, from `src/src/parser.rs` (`pub enum Expression`).
`Infix` and `Prefix` are Lean keywords, so those constructors are named
`infx`/`prefx`; the Rust `Vec<Statement>` / `Vec<Expression>` fields are the
mutual list types `StmtList` / `ExprList` so that the compiler below is
structurally recursive. -/
inductive Expression where
  | int (val : Int)
  | boolean (val : Bool)
  | ident (name : String)
  | str (val : String)
  | infx (left : Expression) (op : Operator) (right : Expression)
  | prefx (pre : PreOp) (value : Expression)
  | ifE (condition : Expression) (consequence : StmtList) (alternative : StmtList)
  | fnLiteral (parameters : List String) (body : StmtList)
  | fnCall (function : Expression) (args : ExprList)

/-- AST statements, from `src/src/parser.rs` (`pub enum Statement`). -/
inductive Statement where
  | letS (name : String) (value : Expression)
  | returnS (value : Expression)
  | exprStmt (e : Expression)

/-- A `Vec<Statement>` of the Rust AST. -/
inductive StmtList where
  | nil
  | cons (s : Statement) (rest : StmtList)

/-- A `Vec<Expression>` of the Rust AST. -/
inductive ExprList where
  | nil
  | cons (e : Expression) (rest : ExprList)

end

/-- Compiled artifact, from `src/src/compiler/compiler.rs` (`pub struct
ByteCode`): the instruction byte stream and the constant pool. -/
structure ByteCode where
  instructions : List Nat
  constants : List Object
deriving DecidableEq, Repr

/-- Compiler state, from `src/src/compiler/compiler.rs` (`pub struct
Compiler`): the byte code being built plus the symbol table. -/
structure CompState where
  byte_code : ByteCode
  symbol_table : SymbolTable

/-- The scope constant `GLOBAL` of `src/src/compiler/compiler.rs`. -/
def GLOBAL : String := "GLOBAL"

/-- The compiler's `unimplemented!()` panics (the wildcard arms of
`compile_statements` and `compile_expression`). -/
inductive CompileErr where
  | unimplemented
deriving DecidableEq, Repr

/-- `Compiler::add_constant`: push the value on the constant pool and return
the new index `(constants.len() - 1) as u16`. -/
def add_constant (st : CompState) (object : Object) : Nat × CompState :=
  let constants := st.byte_code.constants ++ [object]
  ((constants.length - 1) % 65536,
   { st with byte_code := { st.byte_code with constants := constants } })

/-- `Compiler::add_instruction`: append `make_op op_code` to the instruction
stream.  The Rust function also returns the write position as `u16`; that
return value is discarded at every call site, so it is omitted here. -/
def add_instruction (st : CompState) (op_code : OpCode) : CompState :=
  { st with
    byte_code :=
      { st.byte_code with
        instructions := st.byte_code.instructions ++ make_op op_code } }

/-- `Compiler::is_last_instruction_pop`: compare the LAST BYTE of the stream
with the first byte of `make_op(OpPop)` (`0x06`).  Note this is a raw byte
comparison, not a check that the last complete instruction is an `OpPop`. -/
def is_last_instruction_pop (st : CompState) : Bool :=
  st.byte_code.instructions.getLast? == some ((make_op OpCode.opPop).getD 0 0)

/-- `Compiler::remove_last_pop`: drop the final byte of the stream. -/
def remove_last_pop (st : CompState) : CompState :=
  { st with
    byte_code :=
      { st.byte_code with instructions := st.byte_code.instructions.dropLast } }

/-- `Compiler::replace_op`: overwrite the bytes at `pos`, `pos+1`, ... with
the encoding of `opcode` (in-place operand patching).  `List.set` ignores
out-of-range positions; the compiler only ever patches in-range positions,
where this agrees with the Rust indexed assignment. -/
def replace_op (st : CompState) (pos : Nat) (opcode : OpCode) : CompState :=
  let bytes := make_op opcode
  { st with
    byte_code :=
      { st.byte_code with
        instructions :=
          (List.range bytes.length).foldl
            (fun instrs i => instrs.set (pos + i) (bytes.getD i 0))
            st.byte_code.instructions } }

mutual

/-- `Compiler::compile_statements` from `src/src/compiler/compiler.rs`:
iterate over the statements; an `ExpressionStatement` compiles its expression
and appends `OpPop`; a `Let` compiles the value, defines the name in the
symbol table with scope `GLOBAL`, and appends `OpSetGlobal(index)`; any other
statement (i.e. `Return`) hits `unimplemented!()`. -/
def compile_statements : StmtList → CompState → Except CompileErr CompState
  | .nil, st => .ok st
  | .cons (.exprStmt e) rest, st => do
      let st ← compile_expression e st
      compile_statements rest (add_instruction st OpCode.opPop)
  | .cons (.letS name value) rest, st => do
      let st ← compile_expression value st
      let (symbol_index, table) := st.symbol_table.define name GLOBAL
      compile_statements rest
        (add_instruction { st with symbol_table := table }
          (OpCode.opSetGlobal symbol_index))
  | .cons (.returnS _) _, _ => .error .unimplemented

/-- `Compiler::compile_expression` from `src/src/compiler/compiler.rs`.  The
supported forms are integer and boolean literals, infix and prefix
expressions, and conditionals; every other form — including `Ident` — hits
the wildcard `unimplemented!()` arm.  `as u16` casts of stream lengths are
the `% 65536` reductions. -/
def compile_expression : Expression → CompState → Except CompileErr CompState
  | .int val, st =>
      let (index, st) := add_constant st (Object.int val)
      .ok (add_instruction st (OpCode.opConstant index))
  | .boolean true, st => .ok (add_instruction st OpCode.opTrue)
  | .boolean false, st => .ok (add_instruction st OpCode.opFalse)
  | .infx left op right, st => do
      let st ← compile_expression left st
      let st ← compile_expression right st
      .ok (add_instruction st
        (match op with
         | .PLUS => OpCode.opAdd
         | .MINUS => OpCode.opSub
         | .MULTIPLY => OpCode.opMul
         | .DIVIDE => OpCode.opDiv
         | .GREATER => OpCode.opGreater
         | .LESS => OpCode.opLess
         | .EQUAL => OpCode.opEqual
         | .NEQUAL => OpCode.opNotEqual))
  | .prefx pre value, st => do
      let st ← compile_expression value st
      .ok (add_instruction st
        (match pre with
         | .MINUS => OpCode.opMinus
         | .BANG => OpCode.opBang))
  | .ifE condition consequence alternative, st => do
      let st ← compile_expression condition st
      let jmp_false := st.byte_code.instructions.length
      let st := add_instruction st (OpCode.opJmpIfFalse 9999)
      let st ← compile_statements consequence st
      let st := if is_last_instruction_pop st then remove_last_pop st else st
      match alternative with
      | .nil =>
          let new_jmp_pos := st.byte_code.instructions.length % 65536
          .ok (replace_op st jmp_false (OpCode.opJmpIfFalse new_jmp_pos))
      | .cons a rest => do
          let jmp := st.byte_code.instructions.length
          let st := add_instruction st (OpCode.opJmp 9999)
          let jmp_false_pos := st.byte_code.instructions.length % 65536
          let st := replace_op st jmp_false (OpCode.opJmpIfFalse jmp_false_pos)
          let st ← compile_statements (.cons a rest) st
          let st := if is_last_instruction_pop st then remove_last_pop st else st
          let jmp_pos := st.byte_code.instructions.length % 65536
          .ok (replace_op st jmp (OpCode.opJmp jmp_pos))
  | .ident _, _ => .error .unimplemented
  | .str _, _ => .error .unimplemented
  | .fnLiteral _ _, _ => .error .unimplemented
  | .fnCall _ _, _ => .error .unimplemented

end

/-- A fresh compiler state, as built by `Compiler::from_source`: empty byte
code and a new symbol table. -/
def CompState.new : CompState :=
  { byte_code := { instructions := [], constants := [] }, symbol_table := SymbolTable.new }

/-- The post-parse part of `Compiler::from_source`: compile the statement
list from a fresh state and return the resulting `ByteCode` (the symbol
table is dropped, as in the Rust function). -/
def compile_program (ast : StmtList) : Except CompileErr ByteCode :=
  (compile_statements ast CompState.new).map (fun st => st.byte_code)

/-- `STACK_SIZE` from `src/src/vm.rs`. -/
def STACK_SIZE : Nat := 2048

/-- The panics the VM of `src/src/vm.rs` can raise.  `Vm::run` returns `()`
in Rust and diverges by panicking; this embedding surfaces each panic site as
an `Except` error so runs can be reasoned about.  `subOverflow` is the panic
of the unchecked `self.stack_pointer -= 1` in `Vm::pop` when the pointer is
already 0 (a `usize` subtract-with-overflow panic, not a dedicated
stack-underflow check).  `divideByZero` is the panic Rust's `isize` division
itself raises on a zero divisor (there is no zero test in the source).
`outOfFuel` is an artifact of the fuel-indexed loop below and is unreachable
for the fuel `Vm.run` supplies, since every implemented opcode advances the
instruction pointer by at least one byte. -/
inductive VmPanic where
  | stackOverflow
  | subOverflow
  | invalidInstruction (tag : Nat)
  | invalidOperand (tag : Nat)
  | indexOutOfBounds
  | divideByZero
  | outOfFuel
deriving DecidableEq, Repr

/-- Mutable VM state: the fixed-size value stack and the stack pointer.  The
Rust stack is `[Object; STACK_SIZE]` initialised with `mem::zeroed()`; the
all-zero representation of this `Object` enum is its first, fieldless variant
`Null`, so the initial stack is `STACK_SIZE` copies of `Object.null`.  As in
the Rust array, `pop` only decrements the pointer: popped values stay in
their slots. -/
structure VmState where
  stack : List Object
  stack_pointer : Nat
deriving DecidableEq, Repr

/-- `Vm::push`: panic with "Stack overflow" when `stack_pointer >=
STACK_SIZE`, else write at `stack_pointer` and increment it. -/
def push (st : VmState) (obj : Object) : Except VmPanic VmState :=
  if STACK_SIZE ≤ st.stack_pointer then
    .error .stackOverflow
  else
    .ok { stack := st.stack.set st.stack_pointer obj,
          stack_pointer := st.stack_pointer + 1 }

/-- `Vm::pop`: `self.stack_pointer -= 1; self.stack[self.stack_pointer]`.
The decrement is unchecked; at pointer 0 it is a `usize`
subtract-with-overflow panic (`subOverflow`).  The popped slot is read, not
cleared. -/
def pop (st : VmState) : Except VmPanic (Object × VmState) :=
  if st.stack_pointer = 0 then
    .error .subOverflow
  else
    .ok (st.stack.getD (st.stack_pointer - 1) Object.null,
         { st with stack_pointer := st.stack_pointer - 1 })

/-- One iteration of the dispatch loop of `Vm::run` (`src/src/vm.rs`): read
the tag at `ip`, execute it, and return the new state and new `ip`.  Only
tags `0x01`–`0x0e` are implemented; every other tag — including the jump and
global opcodes `0x0f`–`0x12` the compiler can emit — hits the final match arm
`invalid => panic!("Invalid instruction: ...")`.  Binary operators pop right
then left (right was pushed last); `Div` uses `Int.tdiv`, the
truncate-toward-zero division of Rust `isize`, and Rust's division itself
panics on a zero divisor, with no preceding zero check in the source. -/
def step (instructions : List Nat) (constants : List Object) (st : VmState)
    (ip : Nat) : Except VmPanic (VmState × Nat) :=
  match instructions.getD ip 0 with
  | 0x01 =>
      match instructions.get? (ip + 1), instructions.get? (ip + 2) with
      | some b1, some b2 =>
          let const_index := two_u8_to_usize b1 b2
          match constants.get? const_index with
          | some c => (push st c).map (fun st' => (st', ip + 3))
          | none => .error .indexOutOfBounds
      | _, _ => .error .indexOutOfBounds
  | 0x02 => do
      let (right, st) ← pop st
      let (left, st) ← pop st
      match right, left with
      | .int r, .int l => do
          let st ← push st (.int (l + r))
          return (st, ip + 1)
      | _, _ => .error (.invalidOperand 0x02)
  | 0x03 => do
      let (right, st) ← pop st
      let (left, st) ← pop st
      match right, left with
      | .int r, .int l => do
          let st ← push st (.int (l - r))
          return (st, ip + 1)
      | _, _ => .error (.invalidOperand 0x03)
  | 0x04 => do
      let (right, st) ← pop st
      let (left, st) ← pop st
      match right, left with
      | .int r, .int l => do
          let st ← push st (.int (l * r))
          return (st, ip + 1)
      | _, _ => .error (.invalidOperand 0x04)
  | 0x05 => do
      let (right, st) ← pop st
      let (left, st) ← pop st
      match right, left with
      | .int r, .int l =>
          if r = 0 then .error .divideByZero
          else do
            let st ← push st (.int (Int.tdiv l r))
            return (st, ip + 1)
      | _, _ => .error (.invalidOperand 0x05)
  | 0x06 => do
      let (_, st) ← pop st
      return (st, ip + 1)
  | 0x07 => do
      let st ← push st (.boolean true)
      return (st, ip + 1)
  | 0x08 => do
      let st ← push st (.boolean false)
      return (st, ip + 1)
  | 0x09 => do
      let (right, st) ← pop st
      let (left, st) ← pop st
      match right, left with
      | .int r, .int l => do
          let st ← push st (.boolean (decide (l > r)))
          return (st, ip + 1)
      | _, _ => .error (.invalidOperand 0x09)
  | 0x0a => do
      let (right, st) ← pop st
      let (left, st) ← pop st
      match right, left with
      | .int r, .int l => do
          let st ← push st (.boolean (decide (l < r)))
          return (st, ip + 1)
      | _, _ => .error (.invalidOperand 0x0a)
  | 0x0b => do
      let (right, st) ← pop st
      let (left, st) ← pop st
      match right, left with
      | .int r, .int l => do
          let st ← push st (.boolean (decide (l = r)))
          return (st, ip + 1)
      | _, _ => .error (.invalidOperand 0x0b)
  | 0x0c => do
      let (right, st) ← pop st
      let (left, st) ← pop st
      match right, left with
      | .int r, .int l => do
          let st ← push st (.boolean (decide (l ≠ r)))
          return (st, ip + 1)
      | _, _ => .error (.invalidOperand 0x0c)
  | 0x0d => do
      let (v, st) ← pop st
      match v with
      | .boolean val => do
          let st ← push st (.boolean (!val))
          return (st, ip + 1)
      | _ => .error (.invalidOperand 0x0d)
  | 0x0e => do
      let (v, st) ← pop st
      match v with
      | .int val => do
          let st ← push st (.int (-val))
          return (st, ip + 1)
      | _ => .error (.invalidOperand 0x0e)
  | invalid => .error (.invalidInstruction invalid)

/-- The `while ip < self.instructions.len()` loop of `Vm::run`, indexed by
fuel so it is a computable structural recursion.  Every implemented opcode
advances `ip`, so the loop performs at most `instructions.length` iterations
and any fuel beyond that bound is never exhausted. -/
def run_loop (instructions : List Nat) (constants : List Object) :
    Nat → VmState → Nat → Except VmPanic VmState
  | 0, _, _ => .error .outOfFuel
  | fuel + 1, st, ip =>
      if ip < instructions.length then
        match step instructions constants st ip with
        | .error e => .error e
        | .ok (st', ip') => run_loop instructions constants fuel st' ip'
      else
        .ok st

/-- `Vm::new` followed by `Vm::run`: start with a zeroed stack and stack
pointer 0 at `ip` 0 and run the dispatch loop to the end of the stream. -/
def Vm.run (bytecode : ByteCode) : Except VmPanic VmState :=
  run_loop bytecode.instructions bytecode.constants
    (bytecode.instructions.length + 1)
    { stack := List.replicate STACK_SIZE Object.null, stack_pointer := 0 } 0

/-- Modelled from the spec (sections 4.1 and 6): the fixed byte width of each
opcode tag of the wire format — 3 bytes for the operand-bearing tags `0x01`
(`Constant`), `0x0f` (`Jump`), `0x10` (`JumpIfFalse`), `0x11` (`SetGlobal`),
`0x12` (`GetGlobal`); 1 byte for tags `0x02`–`0x0e`; no width for an
unrecognized tag.  This width table restates `make_op`'s output lengths and
is used only to state the decodability invariant of claim C9. -/
def instr_width (tag : Nat) : Option Nat :=
  if tag = 0x01 ∨ tag = 0x0f ∨ tag = 0x10 ∨ tag = 0x11 ∨ tag = 0x12 then some 3
  else if 0x02 ≤ tag ∧ tag ≤ 0x0e then some 1
  else none

/-- Modelled from the spec (section 6): a byte stream decodes as a sequence
of complete instructions when it can be split, front to back, into chunks of
the widths `instr_width` assigns to their leading tags. -/
def well_formed_stream : List Nat → Bool
  | [] => true
  | tag :: rest =>
      match instr_width tag with
      | some 1 => well_formed_stream rest
      | some 3 =>
          match rest with
          | _ :: _ :: rest' => well_formed_stream rest'
          | _ => false
      | _ => false

/-- Verification harness: perform a sequence of `SymbolTable::define` calls
(all with scope `GLOBAL`, as the compiler does) and collect the returned slot
indices alongside the final table. -/
def define_seq : List String → SymbolTable → List Nat × SymbolTable
  | [], st => ([], st)
  | name :: rest, st =>
      let (i, st) := st.define name GLOBAL
      let (is, st) := define_seq rest st
      (i :: is, st)

/-- Verification harness: the position of the last occurrence of `m` in the
list, counted from the front — the slot a name is left mapped to after the
names are defined in order. -/
def last_index_of (m : String) : List String → Option Nat
  | [] => none
  | n :: rest =>
      match last_index_of m rest with
      | some i => some (i + 1)
      | none => if n = m then some 0 else none

/-- The AST the external parser produces for `"let one = 1; let two = 2;"`. -/
def two_let_ast : StmtList :=
  .cons (.letS "one" (.int 1)) (.cons (.letS "two" (.int 2)) .nil)

/-- The bytecode the compiler emits for `two_let_ast` (it matches the
repository's own `test_globals` compiler test). -/
def two_let_bytecode : ByteCode :=
  ⟨[1, 0, 0, 17, 0, 0, 1, 0, 1, 17, 0, 1], [.int 1, .int 2]⟩

/-- The AST the external parser produces for
`"if (true) { 10 } else { 20 }"`. -/
def if_else_ast : StmtList :=
  .cons (.exprStmt (.ifE (.boolean true)
    (.cons (.exprStmt (.int 10)) .nil)
    (.cons (.exprStmt (.int 20)) .nil))) .nil

/-- The bytecode the compiler emits for `if_else_ast` (it matches the
repository's own `test_if` compiler test): `OpTrue`; `OpJmpIfFalse` at byte
offset 1 patched to operand 10; `Constant(0)`; `OpJmp` at byte offset 7
patched to operand 13; `Constant(1)`; `OpPop`. -/
def if_else_bytecode : ByteCode :=
  ⟨[7, 16, 0, 10, 1, 0, 0, 15, 0, 13, 1, 0, 1, 6], [.int 10, .int 20]⟩

/-- The AST the external parser produces for `"2 * 2 + 6 / 2 - 9"`:
`((2 * 2) + (6 / 2)) - 9` under the parser's precedence climbing. -/
def arith_ast : StmtList :=
  .cons (.exprStmt
    (.infx
      (.infx (.infx (.int 2) .MULTIPLY (.int 2)) .PLUS
             (.infx (.int 6) .DIVIDE (.int 2)))
      .MINUS (.int 9))) .nil

/-- The bytecode the compiler emits for `arith_ast`. -/
def arith_bytecode : ByteCode :=
  ⟨[1, 0, 0, 1, 0, 1, 4, 1, 0, 2, 1, 0, 3, 5, 2, 1, 0, 4, 3, 6],
   [.int 2, .int 2, .int 6, .int 2, .int 9]⟩

/-- The AST for a program whose seventh global (slot 6) is defined by a let
binding that is the last statement of a conditional's consequence:
`"let a = 1; ... let f = 1; let h = if (true) { let g = 1; };"`.  The
consequence's last emitted instruction is `SetGlobal(6)`, whose low operand
byte equals the `OpPop` tag `0x06`. -/
def slot6_ast : StmtList :=
  .cons (.letS "a" (.int 1)) (.cons (.letS "b" (.int 1))
    (.cons (.letS "c" (.int 1)) (.cons (.letS "d" (.int 1))
      (.cons (.letS "e" (.int 1)) (.cons (.letS "f" (.int 1))
        (.cons (.letS "h"
          (.ifE (.boolean true) (.cons (.letS "g" (.int 1)) .nil) .nil))
          .nil))))))

/-- The byte stream the compiler actually emits for `slot6_ast`: the
trailing-`Pop` elision has removed the low operand byte of the consequence's
`SetGlobal(6)`, leaving the truncated pair `17, 0` at offsets 43–44. -/
def slot6_instructions : List Nat :=
  [1, 0, 0, 17, 0, 0,
   1, 0, 1, 17, 0, 1,
   1, 0, 2, 17, 0, 2,
   1, 0, 3, 17, 0, 3,
   1, 0, 4, 17, 0, 4,
   1, 0, 5, 17, 0, 5,
   7, 16, 0, 45,
   1, 0, 6,
   17, 0,
   17, 0, 7]

/-- The AST the external parser produces for `"let x = 1; x;"` — a program
that references an identifier after defining it. -/
def defined_ident_ast : StmtList :=
  .cons (.letS "x" (.int 1)) (.cons (.exprStmt (.ident "x")) .nil)

/-- Recombining the high byte and the low byte of a value is the identity, as
a pure bit-vector fact. -/
theorem shift_or_mod (v : Nat) : ((v >>> 8) <<< 8) ||| (v % 2 ^ 8) = v := by
  apply Nat.eq_of_testBit_eq
  intro i
  rw [Nat.testBit_or, Nat.testBit_shiftLeft, Nat.testBit_mod_two_pow]
  by_cases h : 8 ≤ i
  · rw [Nat.testBit_shiftRight]
    have h8 : 8 + (i - 8) = i := by omega
    simp [h, Nat.not_lt.mpr h, h8]
  · simp [h, Nat.lt_of_not_le h]

/-- `two_u8_to_usize` inverts the two operand bytes `make_op` computes, for
any value in the `u16` range. -/
theorem round_trip_u16 (v : Nat) (h : v < 65536) :
    two_u8_to_usize ((v >>> 8) % 256) (v % 256) = v := by
  have hlt : v >>> 8 < 256 := by
    rw [Nat.shiftRight_eq_div_pow]
    omega
  rw [two_u8_to_usize, Nat.mod_eq_of_lt hlt]
  exact shift_or_mod v

/-- C5: for every `u16` value `v` and every operand-bearing opcode, decoding
the two operand bytes (positions 1 and 2, high byte first) of the encoded
instruction with `two_u8_to_usize` returns exactly `v`:
`two_u8_to_usize ∘ make_op` is the identity on `u16` operands. -/
theorem C5_operand_round_trip (v : Nat) (h : v < 65536) :
    two_u8_to_usize ((make_op (.opConstant v)).getD 1 0)
      ((make_op (.opConstant v)).getD 2 0) = v
  ∧ two_u8_to_usize ((make_op (.opJmp v)).getD 1 0)
      ((make_op (.opJmp v)).getD 2 0) = v
  ∧ two_u8_to_usize ((make_op (.opJmpIfFalse v)).getD 1 0)
      ((make_op (.opJmpIfFalse v)).getD 2 0) = v
  ∧ two_u8_to_usize ((make_op (.opSetGlobal v)).getD 1 0)
      ((make_op (.opSetGlobal v)).getD 2 0) = v
  ∧ two_u8_to_usize ((make_op (.opGetGlobal v)).getD 1 0)
      ((make_op (.opGetGlobal v)).getD 2 0) = v := by
  refine ⟨?_, ?_, ?_, ?_, ?_⟩ <;>
    simpa [make_op] using round_trip_u16 v h

/-- Witness for C5 at the `u16` boundary value 65535. -/
theorem C5_operand_round_trip_witness :
    65535 < 65536
  ∧ two_u8_to_usize ((make_op (.opConstant 65535)).getD 1 0)
      ((make_op (.opConstant 65535)).getD 2 0) = 65535 :=
  ⟨by decide, (C5_operand_round_trip 65535 (by decide)).1⟩

/-- Running a sequence of defines returns the consecutive indices starting at
the table's current `next_index`. -/
theorem define_seq_indices (names : List String) (st : SymbolTable) :
    (define_seq names st).1 = List.range' st.next_index names.length := by
  induction names generalizing st with
  | nil => rfl
  | cons n rest ih => simp [define_seq, SymbolTable.define, ih, List.range']

/-- After a sequence of defines, a name resolves to the index assigned at its
last occurrence (offset by the table's starting `next_index`), and a name
that was not defined resolves as it did before. -/
theorem define_seq_resolve (names : List String) (st : SymbolTable) (m : String) :
    (define_seq names st).2.resolve m =
      (match last_index_of m names with
       | some i => some (st.next_index + i)
       | none => st.resolve m) := by
  induction names generalizing st with
  | nil => simp [define_seq, last_index_of]
  | cons n rest ih =>
      simp only [define_seq, SymbolTable.define, last_index_of]
      rw [ih]
      rcases h : last_index_of m rest with _ | i
      · simp only [h]
        by_cases hnm : n = m
        · subst hnm
          simp [SymbolTable.resolve]
        · have hmn : ¬ m = n := fun hh => hnm hh.symm
          simp [SymbolTable.resolve, hmn, hnm]
      · simp only [h]
        congr 1
        omega

/-- C8: over a fresh table's lifetime, the successive `define` calls return
the sequential indices `0, 1, 2, ...` (so a redefinition always receives a
fresh index, never a previously returned one), and `resolve` returns the
index assigned at the name's most recent definition — `none` when the name
was never defined.  The hypothesis keeps the define count inside the `u16`
range of the Rust `next_index` counter, where this `Nat` model and the
source agree. -/
theorem C8_define_sequential_resolve_last (names : List String) (m : String)
    (h : names.length < 65536) :
    (define_seq names SymbolTable.new).1 = List.range names.length
  ∧ (define_seq names SymbolTable.new).2.resolve m = last_index_of m names := by
  constructor
  · rw [define_seq_indices]
    simp [SymbolTable.new, List.range_eq_range']
  · rw [define_seq_resolve]
    rcases hli : last_index_of m names with _ | i
    · simp [SymbolTable.new, SymbolTable.resolve]
    · simp [SymbolTable.new]

/-- Witness for C8 on the redefinition sequence `one, two, one`: the calls
return `0, 1, 2` and `one` resolves to its most recent index 2. -/
theorem C8_define_sequential_resolve_last_witness :
    (["one", "two", "one"] : List String).length < 65536
  ∧ ((define_seq ["one", "two", "one"] SymbolTable.new).1 = List.range 3
  ∧ (define_seq ["one", "two", "one"] SymbolTable.new).2.resolve "one"
      = last_index_of "one" ["one", "two", "one"]) := by
  refine ⟨by decide, ?_⟩
  simpa using C8_define_sequential_resolve_last ["one", "two", "one"] "one" (by decide)

/-- Binding an `ok` value in the `Except` monad applies the continuation. -/
theorem exc_ok_bind {ε : Type u} {α β : Type v} (a : α) (f : α → Except ε β) :
    (Except.ok (ε := ε) a >>= f) = f a := rfl

/-- An `OpAdd` step pops right then left and pushes `left + right` (the sum
lands in slot `sp - 2`, the stack pointer drops by one, and the instruction
pointer advances by the 1-byte width). -/
theorem step_add (instructions : List Nat) (constants : List Object)
    (stack : List Object) (sp ip : Nat) (r l : Int)
    (htag : instructions.getD ip 0 = 2) (hsp : 2 ≤ sp) (hcap : sp ≤ STACK_SIZE)
    (hr : stack.getD (sp - 1) Object.null = .int r)
    (hl : stack.getD (sp - 2) Object.null = .int l) :
    step instructions constants ⟨stack, sp⟩ ip =
      .ok (⟨stack.set (sp - 2) (.int (l + r)), sp - 1⟩, ip + 1) := by
  have h1 : ¬ sp = 0 := by omega
  have h2 : ¬ sp - 1 = 0 := by omega
  have h3 : ¬ STACK_SIZE ≤ sp - 2 := by
    simp only [STACK_SIZE] at hcap ⊢
    omega
  have h4 : sp - 1 - 1 = sp - 2 := by omega
  have h5 : sp - 2 + 1 = sp - 1 := by omega
  simp at htag hr hl
  simp [step, htag, pop, push, exc_ok_bind, h1, h2, h3, h4, h5, hr, hl]

/-- An `OpSub` step pops right then left and pushes `left - right`: operand
order is visible in the asymmetry of subtraction. -/
theorem step_sub (instructions : List Nat) (constants : List Object)
    (stack : List Object) (sp ip : Nat) (r l : Int)
    (htag : instructions.getD ip 0 = 3) (hsp : 2 ≤ sp) (hcap : sp ≤ STACK_SIZE)
    (hr : stack.getD (sp - 1) Object.null = .int r)
    (hl : stack.getD (sp - 2) Object.null = .int l) :
    step instructions constants ⟨stack, sp⟩ ip =
      .ok (⟨stack.set (sp - 2) (.int (l - r)), sp - 1⟩, ip + 1) := by
  have h1 : ¬ sp = 0 := by omega
  have h2 : ¬ sp - 1 = 0 := by omega
  have h3 : ¬ STACK_SIZE ≤ sp - 2 := by
    simp only [STACK_SIZE] at hcap ⊢
    omega
  have h4 : sp - 1 - 1 = sp - 2 := by omega
  have h5 : sp - 2 + 1 = sp - 1 := by omega
  simp at htag hr hl
  simp [step, htag, pop, push, exc_ok_bind, h1, h2, h3, h4, h5, hr, hl]

/-- An `OpMul` step pops right then left and pushes `left * right`. -/
theorem step_mul (instructions : List Nat) (constants : List Object)
    (stack : List Object) (sp ip : Nat) (r l : Int)
    (htag : instructions.getD ip 0 = 4) (hsp : 2 ≤ sp) (hcap : sp ≤ STACK_SIZE)
    (hr : stack.getD (sp - 1) Object.null = .int r)
    (hl : stack.getD (sp - 2) Object.null = .int l) :
    step instructions constants ⟨stack, sp⟩ ip =
      .ok (⟨stack.set (sp - 2) (.int (l * r)), sp - 1⟩, ip + 1) := by
  have h1 : ¬ sp = 0 := by omega
  have h2 : ¬ sp - 1 = 0 := by omega
  have h3 : ¬ STACK_SIZE ≤ sp - 2 := by
    simp only [STACK_SIZE] at hcap ⊢
    omega
  have h4 : sp - 1 - 1 = sp - 2 := by omega
  have h5 : sp - 2 + 1 = sp - 1 := by omega
  simp at htag hr hl
  simp [step, htag, pop, push, exc_ok_bind, h1, h2, h3, h4, h5, hr, hl]

/-- An `OpDiv` step with a nonzero right operand pops right then left and
pushes `Int.tdiv left right` — division truncating toward zero, as Rust
`isize` division does. -/
theorem step_div (instructions : List Nat) (constants : List Object)
    (stack : List Object) (sp ip : Nat) (r l : Int)
    (htag : instructions.getD ip 0 = 5) (hsp : 2 ≤ sp) (hcap : sp ≤ STACK_SIZE)
    (hr : stack.getD (sp - 1) Object.null = .int r)
    (hl : stack.getD (sp - 2) Object.null = .int l)
    (hr0 : r ≠ 0) :
    step instructions constants ⟨stack, sp⟩ ip =
      .ok (⟨stack.set (sp - 2) (.int (Int.tdiv l r)), sp - 1⟩, ip + 1) := by
  have h1 : ¬ sp = 0 := by omega
  have h2 : ¬ sp - 1 = 0 := by omega
  have h3 : ¬ STACK_SIZE ≤ sp - 2 := by
    simp only [STACK_SIZE] at hcap ⊢
    omega
  have h4 : sp - 1 - 1 = sp - 2 := by omega
  have h5 : sp - 2 + 1 = sp - 1 := by omega
  simp at htag hr hl
  simp [step, htag, pop, push, exc_ok_bind, h1, h2, h3, h4, h5, hr, hl, hr0]

/-- An `OpDiv` step whose popped right operand is `Int(0)` halts with the
division-by-zero panic (Rust's `/` panics; the source has no zero check). -/
theorem step_div_zero (instructions : List Nat) (constants : List Object)
    (stack : List Object) (sp ip : Nat) (l : Int)
    (htag : instructions.getD ip 0 = 5) (hsp : 2 ≤ sp)
    (hr : stack.getD (sp - 1) Object.null = .int 0)
    (hl : stack.getD (sp - 2) Object.null = .int l) :
    step instructions constants ⟨stack, sp⟩ ip = .error .divideByZero := by
  have h1 : ¬ sp = 0 := by omega
  have h2 : ¬ sp - 1 = 0 := by omega
  have h4 : sp - 1 - 1 = sp - 2 := by omega
  simp at htag hr hl
  simp [step, htag, pop, exc_ok_bind, h1, h2, h4, hr, hl]

/-- An `OpAdd` step where the popped right operand or the popped left operand
is not an integer halts with the type-error panic of the `OpAdd` arm. -/
theorem step_add_type_error (instructions : List Nat) (constants : List Object)
    (stack : List Object) (sp ip : Nat)
    (htag : instructions.getD ip 0 = 2) (hsp : 2 ≤ sp)
    (hno : (∀ v : Int, stack.getD (sp - 1) Object.null ≠ Object.int v)
         ∨ (∀ v : Int, stack.getD (sp - 2) Object.null ≠ Object.int v)) :
    step instructions constants ⟨stack, sp⟩ ip = .error (.invalidOperand 2) := by
  have h1 : ¬ sp = 0 := by omega
  have h2 : ¬ sp - 1 = 0 := by omega
  have h4 : sp - 1 - 1 = sp - 2 := by omega
  simp at htag
  rcases hno with hno | hno <;>
  rcases hro : stack.getD (sp - 1) Object.null with _ | rv | rb | rr <;>
  rcases hlo : stack.getD (sp - 2) Object.null with _ | lv | lb | lr <;>
  first
    | exact absurd hro (hno rv)
    | exact absurd hlo (hno lv)
    | (simp at hro hlo
       simp [step, htag, pop, exc_ok_bind, h1, h2, h4, hro, hlo])

/-- An `OpSub` step where the popped right operand or the popped left operand
is not an integer halts with the type-error panic of the `OpSub` arm. -/
theorem step_sub_type_error (instructions : List Nat) (constants : List Object)
    (stack : List Object) (sp ip : Nat)
    (htag : instructions.getD ip 0 = 3) (hsp : 2 ≤ sp)
    (hno : (∀ v : Int, stack.getD (sp - 1) Object.null ≠ Object.int v)
         ∨ (∀ v : Int, stack.getD (sp - 2) Object.null ≠ Object.int v)) :
    step instructions constants ⟨stack, sp⟩ ip = .error (.invalidOperand 3) := by
  have h1 : ¬ sp = 0 := by omega
  have h2 : ¬ sp - 1 = 0 := by omega
  have h4 : sp - 1 - 1 = sp - 2 := by omega
  simp at htag
  rcases hno with hno | hno <;>
  rcases hro : stack.getD (sp - 1) Object.null with _ | rv | rb | rr <;>
  rcases hlo : stack.getD (sp - 2) Object.null with _ | lv | lb | lr <;>
  first
    | exact absurd hro (hno rv)
    | exact absurd hlo (hno lv)
    | (simp at hro hlo
       simp [step, htag, pop, exc_ok_bind, h1, h2, h4, hro, hlo])

/-- An `OpMul` step where the popped right operand or the popped left operand
is not an integer halts with the type-error panic of the `OpMul` arm. -/
theorem step_mul_type_error (instructions : List Nat) (constants : List Object)
    (stack : List Object) (sp ip : Nat)
    (htag : instructions.getD ip 0 = 4) (hsp : 2 ≤ sp)
    (hno : (∀ v : Int, stack.getD (sp - 1) Object.null ≠ Object.int v)
         ∨ (∀ v : Int, stack.getD (sp - 2) Object.null ≠ Object.int v)) :
    step instructions constants ⟨stack, sp⟩ ip = .error (.invalidOperand 4) := by
  have h1 : ¬ sp = 0 := by omega
  have h2 : ¬ sp - 1 = 0 := by omega
  have h4 : sp - 1 - 1 = sp - 2 := by omega
  simp at htag
  rcases hno with hno | hno <;>
  rcases hro : stack.getD (sp - 1) Object.null with _ | rv | rb | rr <;>
  rcases hlo : stack.getD (sp - 2) Object.null with _ | lv | lb | lr <;>
  first
    | exact absurd hro (hno rv)
    | exact absurd hlo (hno lv)
    | (simp at hro hlo
       simp [step, htag, pop, exc_ok_bind, h1, h2, h4, hro, hlo])

/-- An `OpDiv` step where the popped right operand or the popped left operand
is not an integer halts with the type-error panic of the `OpDiv` arm (the
zero test modelling Rust's division panic sits inside the integer-integer
branch, so it is not reached). -/
theorem step_div_type_error (instructions : List Nat) (constants : List Object)
    (stack : List Object) (sp ip : Nat)
    (htag : instructions.getD ip 0 = 5) (hsp : 2 ≤ sp)
    (hno : (∀ v : Int, stack.getD (sp - 1) Object.null ≠ Object.int v)
         ∨ (∀ v : Int, stack.getD (sp - 2) Object.null ≠ Object.int v)) :
    step instructions constants ⟨stack, sp⟩ ip = .error (.invalidOperand 5) := by
  have h1 : ¬ sp = 0 := by omega
  have h2 : ¬ sp - 1 = 0 := by omega
  have h4 : sp - 1 - 1 = sp - 2 := by omega
  simp at htag
  rcases hno with hno | hno <;>
  rcases hro : stack.getD (sp - 1) Object.null with _ | rv | rb | rr <;>
  rcases hlo : stack.getD (sp - 2) Object.null with _ | lv | lb | lr <;>
  first
    | exact absurd hro (hno rv)
    | exact absurd hlo (hno lv)
    | (simp at hro hlo
       simp [step, htag, pop, exc_ok_bind, h1, h2, h4, hro, hlo])

/-- A step whose tag byte is 0 halts with the `Invalid instruction` panic of
the dispatch loop's final match arm. -/
theorem step_invalid_zero (instructions : List Nat) (constants : List Object)
    (st : VmState) (ip : Nat) (htag : instructions.getD ip 0 = 0) :
    step instructions constants st ip = .error (.invalidInstruction 0) := by
  simp at htag
  simp [step, htag]

/-- A step whose tag byte is 15 or higher — covering the unimplemented
`OpJmp` (15), `OpJmpIfFalse` (16), `OpSetGlobal` (17) and `OpGetGlobal` (18)
as well as every unassigned tag — halts with the `Invalid instruction` panic
of the dispatch loop's final match arm. -/
theorem step_invalid_high (instructions : List Nat) (constants : List Object)
    (st : VmState) (ip k : Nat) (htag : instructions.getD ip 0 = k + 15) :
    step instructions constants st ip = .error (.invalidInstruction (k + 15)) := by
  simp at htag
  simp [step, htag]

/-- C1 counterexample: running the VM on the bytecode compiled from
`"let one = 1; let two = 2;"` does not execute `SetGlobal` — the VM has no
global store and no `0x11` dispatch arm, so the run halts at the first
`SetGlobal` with the `Invalid instruction` panic, and no `globals` array
exists to satisfy `globals[0] == Int(1)`. -/
theorem C1_counterexample :
    Vm.run two_let_bytecode = .error (.invalidInstruction 17) := rfl

/-- C1 as amended: the compiler compiles `"let one = 1; let two = 2;"` to
`Constant(0), SetGlobal(0), Constant(1), SetGlobal(1)` with slot 0 assigned
to `one` and slot 1 to `two` in declaration order, but the VM does not
implement the global-store instructions: any `0x11` or `0x12` tag reached by
the dispatch loop halts the run with the `Invalid instruction` panic carrying
that tag, and running the two-let program halts at its first `SetGlobal`. -/
theorem C1_globals_not_executed :
    compile_program two_let_ast = .ok two_let_bytecode
  ∧ (compile_statements two_let_ast CompState.new).toOption.map
      (fun st => (st.symbol_table.resolve "one", st.symbol_table.resolve "two"))
      = some (some 0, some 1)
  ∧ (∀ instrs consts st ip, instrs.getD ip 0 = 17 →
        step instrs consts st ip = .error (.invalidInstruction 17))
  ∧ (∀ instrs consts st ip, instrs.getD ip 0 = 18 →
        step instrs consts st ip = .error (.invalidInstruction 18))
  ∧ Vm.run two_let_bytecode = .error (.invalidInstruction 17) := by
  refine ⟨rfl, rfl, ?_, ?_, rfl⟩
  · intro instrs consts st ip h
    exact step_invalid_high instrs consts st ip 2 (by omega)
  · intro instrs consts st ip h
    exact step_invalid_high instrs consts st ip 3 (by omega)

/-- Witness for C1 at a one-instruction `SetGlobal(0)` stream. -/
theorem C1_globals_not_executed_witness :
    step [17, 0, 0] [] ⟨[], 0⟩ 0 = .error (.invalidInstruction 17) :=
  C1_globals_not_executed.2.2.1 [17, 0, 0] [] ⟨[], 0⟩ 0 rfl

/-- C2 counterexample: the VM does not execute `Jump`/`JumpIfFalse` as the
claim describes.  `Jump(0)` would set the instruction pointer to 0;
`JumpIfFalse(0)` after `True` would pop the boolean and fall through.
Instead both runs halt at the jump tag with the `Invalid instruction`
panic. -/
theorem C2_counterexample :
    Vm.run ⟨[15, 0, 0], []⟩ = .error (.invalidInstruction 15)
  ∧ Vm.run ⟨[7, 16, 0, 0], []⟩ = .error (.invalidInstruction 16) :=
  ⟨rfl, rfl⟩

/-- C2 as amended: the dispatch loop has no arm for tags `0x0f` (`Jump`) and
`0x10` (`JumpIfFalse`); reading either tag halts the run with the `Invalid
instruction` panic carrying the tag — the instruction pointer is never set to
the operand and no boolean is popped. -/
theorem C2_jumps_not_executed :
    (∀ instrs consts st ip, instrs.getD ip 0 = 15 →
        step instrs consts st ip = .error (.invalidInstruction 15))
  ∧ (∀ instrs consts st ip, instrs.getD ip 0 = 16 →
        step instrs consts st ip = .error (.invalidInstruction 16)) := by
  refine ⟨?_, ?_⟩
  · intro instrs consts st ip h
    exact step_invalid_high instrs consts st ip 0 (by omega)
  · intro instrs consts st ip h
    exact step_invalid_high instrs consts st ip 1 (by omega)

/-- Witness for C2 at a one-instruction `Jump(0)` stream. -/
theorem C2_jumps_not_executed_witness :
    step [15, 0, 0] [] ⟨[], 0⟩ 0 = .error (.invalidInstruction 15) :=
  C2_jumps_not_executed.1 [15, 0, 0] [] ⟨[], 0⟩ 0 rfl

/-- C3 counterexample: compiling `"let x = 1; x;"` — where `x` is defined
before being referenced — does not emit `GetGlobal` and does not consult
`resolve`; `compile_expression` has no `Ident` arm, so the reference hits the
wildcard `unimplemented!()` panic and compilation aborts. -/
theorem C3_counterexample :
    compile_program defined_ident_ast = .error .unimplemented := rfl

/-- C3 as amended: compiling any identifier-reference expression, from any
compiler state (whether or not the name is defined in the symbol table),
fails with the `unimplemented!()` panic of `compile_expression`'s wildcard
arm; `symbol_table.resolve` is never called and no `GetGlobal` is emitted. -/
theorem C3_ident_unimplemented :
    (∀ (name : String) (st : CompState),
        compile_expression (.ident name) st = .error .unimplemented)
  ∧ compile_program defined_ident_ast = .error .unimplemented :=
  ⟨fun _ _ => rfl, rfl⟩

/-- C4 counterexample: a pop on an empty stack does not halt with a dedicated
stack-underflow error kind — the source's `pop` performs the unchecked
`self.stack_pointer -= 1`, so the halt is the `usize` subtract-with-overflow
panic of that decrement (and `run()` returns `()` in Rust, surfacing no typed
error at all; the `Except` layer here models the panics). -/
theorem C4_counterexample :
    Vm.run ⟨[6], []⟩ = .error .subOverflow := rfl

/-- C4 as amended: a push at capacity halts with the dedicated `Stack
overflow` panic; a pop at stack pointer 0 halts with the `usize`-decrement
overflow panic (no dedicated underflow kind exists); an unrecognized tag (0,
or 15 and above) halts with the `Invalid instruction` panic carrying the tag;
and these panic kinds are pairwise distinct.  None of them is returned as a
typed error by the Rust `run()`, which returns `()` and panics. -/
theorem C4_failure_panics :
    (∀ st obj, STACK_SIZE ≤ st.stack_pointer → push st obj = .error .stackOverflow)
  ∧ (∀ st, st.stack_pointer = 0 → pop st = .error .subOverflow)
  ∧ (∀ instrs consts st ip, instrs.getD ip 0 = 0 →
        step instrs consts st ip = .error (.invalidInstruction 0))
  ∧ (∀ instrs consts st ip k, instrs.getD ip 0 = k + 15 →
        step instrs consts st ip = .error (.invalidInstruction (k + 15)))
  ∧ VmPanic.stackOverflow ≠ VmPanic.subOverflow
  ∧ (∀ t, VmPanic.invalidInstruction t ≠ VmPanic.stackOverflow
        ∧ VmPanic.invalidInstruction t ≠ VmPanic.subOverflow) := by
  refine ⟨?_, ?_, step_invalid_zero, step_invalid_high, by decide, ?_⟩
  · intro st obj h
    simp [push, h]
  · intro st h
    simp [pop, h]
  · intro t
    exact ⟨by simp, by simp⟩

/-- Witness for C4: overflow on a full stack, underflow at pointer 0, and an
unknown tag, each at a concrete input. -/
theorem C4_failure_panics_witness :
    push ⟨[], STACK_SIZE⟩ (Object.int 0) = .error .stackOverflow
  ∧ pop ⟨[], 0⟩ = .error .subOverflow
  ∧ step [0] [] ⟨[], 0⟩ 0 = .error (.invalidInstruction 0)
  ∧ step [20] [] ⟨[], 0⟩ 0 = .error (.invalidInstruction (5 + 15)) :=
  ⟨C4_failure_panics.1 ⟨[], STACK_SIZE⟩ (Object.int 0) (le_refl _),
   C4_failure_panics.2.1 ⟨[], 0⟩ rfl,
   C4_failure_panics.2.2.1 [0] [] ⟨[], 0⟩ 0 rfl,
   C4_failure_panics.2.2.2.1 [20] [] ⟨[], 0⟩ 0 5 rfl⟩

/-- C6: each of `Add`/`Sub`/`Mul`/`Div` pops right then left and pushes
`left OP right` with `Div` truncating toward zero; for each of the four
operations, a non-integer operand — right or left — is the fatal type-error
panic of that operation's arm; and running the compilation of
`"2 * 2 + 6 / 2 - 9"` ends with stack pointer 0 and `Int(-2)` in stack slot
0 — the program's final value, read back the way the repository's own tests
read it. -/
theorem C6_arithmetic_semantics :
    (∀ instructions constants stack sp ip (r l : Int),
        instructions.getD ip 0 = 2 → 2 ≤ sp → sp ≤ STACK_SIZE →
        stack.getD (sp - 1) Object.null = .int r →
        stack.getD (sp - 2) Object.null = .int l →
        step instructions constants ⟨stack, sp⟩ ip =
          .ok (⟨stack.set (sp - 2) (.int (l + r)), sp - 1⟩, ip + 1))
  ∧ (∀ instructions constants stack sp ip (r l : Int),
        instructions.getD ip 0 = 3 → 2 ≤ sp → sp ≤ STACK_SIZE →
        stack.getD (sp - 1) Object.null = .int r →
        stack.getD (sp - 2) Object.null = .int l →
        step instructions constants ⟨stack, sp⟩ ip =
          .ok (⟨stack.set (sp - 2) (.int (l - r)), sp - 1⟩, ip + 1))
  ∧ (∀ instructions constants stack sp ip (r l : Int),
        instructions.getD ip 0 = 4 → 2 ≤ sp → sp ≤ STACK_SIZE →
        stack.getD (sp - 1) Object.null = .int r →
        stack.getD (sp - 2) Object.null = .int l →
        step instructions constants ⟨stack, sp⟩ ip =
          .ok (⟨stack.set (sp - 2) (.int (l * r)), sp - 1⟩, ip + 1))
  ∧ (∀ instructions constants stack sp ip (r l : Int),
        instructions.getD ip 0 = 5 → 2 ≤ sp → sp ≤ STACK_SIZE →
        stack.getD (sp - 1) Object.null = .int r →
        stack.getD (sp - 2) Object.null = .int l → r ≠ 0 →
        step instructions constants ⟨stack, sp⟩ ip =
          .ok (⟨stack.set (sp - 2) (.int (Int.tdiv l r)), sp - 1⟩, ip + 1))
  ∧ (∀ instructions constants stack sp ip,
        instructions.getD ip 0 = 2 → 2 ≤ sp →
        ((∀ v : Int, stack.getD (sp - 1) Object.null ≠ Object.int v)
          ∨ (∀ v : Int, stack.getD (sp - 2) Object.null ≠ Object.int v)) →
        step instructions constants ⟨stack, sp⟩ ip = .error (.invalidOperand 2))
  ∧ (∀ instructions constants stack sp ip,
        instructions.getD ip 0 = 3 → 2 ≤ sp →
        ((∀ v : Int, stack.getD (sp - 1) Object.null ≠ Object.int v)
          ∨ (∀ v : Int, stack.getD (sp - 2) Object.null ≠ Object.int v)) →
        step instructions constants ⟨stack, sp⟩ ip = .error (.invalidOperand 3))
  ∧ (∀ instructions constants stack sp ip,
        instructions.getD ip 0 = 4 → 2 ≤ sp →
        ((∀ v : Int, stack.getD (sp - 1) Object.null ≠ Object.int v)
          ∨ (∀ v : Int, stack.getD (sp - 2) Object.null ≠ Object.int v)) →
        step instructions constants ⟨stack, sp⟩ ip = .error (.invalidOperand 4))
  ∧ (∀ instructions constants stack sp ip,
        instructions.getD ip 0 = 5 → 2 ≤ sp →
        ((∀ v : Int, stack.getD (sp - 1) Object.null ≠ Object.int v)
          ∨ (∀ v : Int, stack.getD (sp - 2) Object.null ≠ Object.int v)) →
        step instructions constants ⟨stack, sp⟩ ip = .error (.invalidOperand 5))
  ∧ compile_program arith_ast = .ok arith_bytecode
  ∧ (Vm.run arith_bytecode).toOption.map
      (fun st => (st.stack_pointer, st.stack.getD 0 Object.null))
      = some (0, .int (-2)) :=
  ⟨step_add, step_sub, step_mul, step_div,
   step_add_type_error, step_sub_type_error, step_mul_type_error, step_div_type_error,
   rfl, rfl⟩

/-- Witness for C6: an `OpAdd` step at a concrete two-element integer stack,
and an `OpSub` type-error step whose right operand is a boolean. -/
theorem C6_arithmetic_semantics_witness :
    step [2] [] ⟨[Object.int 3, Object.int 4], 2⟩ 0 =
      .ok (⟨[Object.int 7, Object.int 4], 1⟩, 1)
  ∧ step [3] [] ⟨[Object.int 1, Object.boolean true], 2⟩ 0 =
      .error (.invalidOperand 3) := by
  constructor
  · have h := C6_arithmetic_semantics.1 [2] [] [Object.int 3, Object.int 4]
      2 0 4 3 rfl (by omega) (by norm_num [STACK_SIZE]) rfl rfl
    simpa using h
  · exact C6_arithmetic_semantics.2.2.2.2.2.1 [3] []
      [Object.int 1, Object.boolean true] 2 0 rfl (by omega)
      (Or.inl (fun v => by simp))

/-- C7 counterexample: for `"if (true) { 10 } else { 20 }"` the `Jump`
instruction that follows the consequence sits at byte offset 7 (its tag
`0x0f` is `instructions[7]`), but the `JumpIfFalse` operand is patched to 10
— the offset immediately after the `Jump`, not the `Jump`'s own offset. -/
theorem C7_counterexample :
    compile_program if_else_ast = .ok if_else_bytecode
  ∧ if_else_bytecode.instructions.getD 7 0 = 15
  ∧ two_u8_to_usize (if_else_bytecode.instructions.getD 2 0)
      (if_else_bytecode.instructions.getD 3 0) = 10
  ∧ (10 : Nat) ≠ 7 :=
  ⟨rfl, rfl, rfl, by decide⟩

/-- C7 as amended: compiling `"if (true) { 10 } else { 20 }"` patches the
`JumpIfFalse` operand to the byte offset immediately after the `Jump`
instruction that follows the consequence (the start of the alternative,
offset 10 = 7 + 3), and patches the `Jump` operand to the byte offset
immediately after the alternative (offset 13). -/
theorem C7_backpatch_offsets :
    compile_program if_else_ast = .ok if_else_bytecode
  ∧ if_else_bytecode.instructions.getD 7 0 = 15
  ∧ two_u8_to_usize (if_else_bytecode.instructions.getD 2 0)
      (if_else_bytecode.instructions.getD 3 0) = 7 + 3
  ∧ two_u8_to_usize (if_else_bytecode.instructions.getD 8 0)
      (if_else_bytecode.instructions.getD 9 0) = 13 :=
  ⟨rfl, rfl, rfl, rfl⟩

/-- C9: the byte-equality `Pop` test misfires.  On
`"let a = 1; ... let f = 1; let h = if (true) { let g = 1; };"` the
consequence's last emitted instruction is `SetGlobal(6)` — bytes `17, 0, 6`,
a stream on which `is_last_instruction_pop` answers `true` because the low
operand byte 6 equals the `OpPop` tag — so the elision removes that operand
byte, and the emitted program no longer decodes as a sequence of complete
instructions of the fixed widths. -/
theorem C9_pop_elision_corrupts_stream :
    compile_program slot6_ast =
      .ok ⟨slot6_instructions,
           [.int 1, .int 1, .int 1, .int 1, .int 1, .int 1, .int 1]⟩
  ∧ well_formed_stream slot6_instructions = false
  ∧ is_last_instruction_pop ⟨⟨[17, 0, 6], []⟩, SymbolTable.new⟩ = true
  ∧ well_formed_stream [17, 0, 6] = true :=
  ⟨rfl, rfl, rfl, rfl⟩

/-- C10: a `Div` whose popped right operand is `Int(0)` halts with the
division-by-zero panic — raised by the division itself, with no preceding
zero check — and that halt belongs to none of the spec's named error kinds:
it is distinct from the decode panic (`Invalid instruction`), the
runtime-type panics (`Invalid Op.. operand`), and the resource panics
(overflow and the underflow-site panic).  Running
`Constant(Int 1), Constant(Int 0), Div` exhibits it. -/
theorem C10_div_by_zero_unnamed_kind :
    (∀ instructions constants stack sp ip (l : Int),
        instructions.getD ip 0 = 5 → 2 ≤ sp →
        stack.getD (sp - 1) Object.null = .int 0 →
        stack.getD (sp - 2) Object.null = .int l →
        step instructions constants ⟨stack, sp⟩ ip = .error .divideByZero)
  ∧ (∀ t, VmPanic.divideByZero ≠ VmPanic.invalidInstruction t
        ∧ VmPanic.divideByZero ≠ VmPanic.invalidOperand t)
  ∧ VmPanic.divideByZero ≠ VmPanic.stackOverflow
  ∧ VmPanic.divideByZero ≠ VmPanic.subOverflow
  ∧ Vm.run ⟨[1, 0, 0, 1, 0, 1, 5], [.int 1, .int 0]⟩ = .error .divideByZero := by
  refine ⟨step_div_zero, ?_, by decide, by decide, rfl⟩
  intro t
  exact ⟨by simp, by simp⟩

/-- Witness for C10: a `Div` step over the concrete stack `[Int 1, Int 0]`. -/
theorem C10_div_by_zero_unnamed_kind_witness :
    step [5] [] ⟨[Object.int 1, Object.int 0], 2⟩ 0 = .error .divideByZero :=
  C10_div_by_zero_unnamed_kind.1 [5] [] [Object.int 1, Object.int 0]
    2 0 1 rfl (by omega) rfl rfl

end Monkey
